import Mathlib

/-!
Verification of the repust proxy core (standalone path).

Bytes are modelled as `Nat` (values < 256 in practice); byte strings as
`List Nat`.  Machine integers (`u64`/`usize` on a 64-bit target) are `Nat`
with explicit reduction modulo `2 ^ 64` where the source can overflow.

Source files embedded here: `src/utils/helper.rs`, `src/protocol.rs`,
`src/protocol/redis.rs`, `src/protocol/mc.rs`, `src/com.rs`,
`src/proxy/standalone.rs`, `src/proxy/standalone/front.rs`,
`src/proxy/standalone/back.rs`.  The files `resp.rs` (RESP message
representation), `fnv.rs` (hasher) and `mc/msg.rs` are not among the
sources; the definitions for those parts are modelled from the spec and
marked `Modelled from the spec:` in their doc comments.
-/

namespace Repust

/-- The `u64` modulus: `usize` and `u64` arithmetic in the source is on a
64-bit target. -/
def U64 : Nat := 18446744073709551616

/-- Translation of Rust `Iterator::position` on a byte slice: index of the
first element satisfying `p`, or `none`.  `helper.rs` calls
`key.iter().position(...)` in `trim_hash_tag`. -/
def position (p : Nat → Bool) : List Nat → Option Nat
  | [] => none
  | x :: xs => if p x then some 0 else (position p xs).map (· + 1)

/-- Embeds `helper.rs::trim_hash_tag` (src/utils/helper.rs lines 46-59):
if the hash tag is not exactly two bytes the key is returned unchanged;
otherwise looks for the first occurrence `begin` of `hash_tag[0]` and the
first occurrence of `hash_tag[1]` in `key[begin..]` (an offset counted from
`begin`, so the close byte is searched at-or-after the open byte); when
that offset is greater than 1 the slice `key[begin+1..begin+end_offset]`
is returned, else the whole key. -/
def trim_hash_tag (key : List Nat) (hash_tag : List Nat) : List Nat :=
  match hash_tag with
  | [o, c] =>
    match position (fun x => x == o) key with
    | some b =>
      match position (fun x => x == c) (key.drop b) with
      | some e => if 1 < e then (key.drop (b + 1)).take (e - 1) else key
      | none => key
    | none => key
  | _ => key

/-- Embeds `helper.rs::upper`: ASCII lowercase bytes are shifted to
uppercase, all other bytes kept. -/
def upper (input : List Nat) : List Nat :=
  input.map (fun b => if 97 ≤ b ∧ b ≤ 122 then b - 32 else b)

/-- Embeds `helper.rs::itoa`: the decimal ASCII rendering of a `usize`
(appended to a buffer in the source; here the rendered bytes). -/
def itoa (n : Nat) : List Nat :=
  (Nat.repr n).data.map Char.toNat

/-- Modelled from the spec: `fnv1a64`, the 64-bit FNV-1a hash used by the
dispatcher ("the dispatcher computes fnv1a-64 over the trimmed key");
`src/proxy/standalone/fnv.rs` is not among the sources.  Standard FNV-1a:
offset basis 14695981039346656037, prime 1099511628211, xor the byte then
multiply, all modulo `2 ^ 64`. -/
def fnv1a64 (data : List Nat) : Nat :=
  data.foldl (fun h b => Nat.xor h (b % 256) * 1099511628211 % U64) 14695981039346656037

/-- ASCII decimal digit test. -/
def isDigitByte (b : Nat) : Bool := 48 ≤ b && b ≤ 57

/-- Numeric value of an ASCII digit string. -/
def digitsVal (l : List Nat) : Nat := l.foldl (fun a b => a * 10 + (b - 48)) 0

/-- Contract of the external `btoi` crate at type `usize` on the inputs the
proxy feeds it (digit strings): a non-empty all-digit string below `2 ^ 64`
parses to its value, anything else is an error.  Used by the DEL/EXISTS
reply aggregation in `redis.rs`. -/
def btoi_usize (l : List Nat) : Option Nat :=
  if l ≠ [] ∧ l.all isDigitByte ∧ digitsVal l < U64 then some (digitsVal l) else none

/-! ## RESP message model

`src/protocol/redis/resp.rs` is not among the sources; the message shape is
modelled from the spec (section 3, "Message (RESP)"). -/

/-- Modelled from the spec: a RESP message is a tree of tagged variants -
simple string, error, integer, bulk string (null bulk = `bulk none`),
array (null array = `nullArray`) and an inline whitespace-split command
line.  The spec's zero-copy `[begin, end)` ranges into the owning buffer
are replaced by the payload bytes themselves, which is what the ranges
denote. -/
inductive RespElem : Type where
  | simple (d : List Nat)
  | error (d : List Nat)
  | integer (d : List Nat)
  | bulk (d : Option (List Nat))
  | array (items : List RespElem)
  | nullArray
  | inlineBody (parts : List (List Nat))

/-- Payload bytes of a non-array element, `none` for arrays and null
bulks. -/
def RespElem.content : RespElem → Option (List Nat)
  | .simple d => some d
  | .error d => some d
  | .integer d => some d
  | .bulk d => d
  | .array _ => none
  | .nullArray => none
  | .inlineBody _ => none

/-- Modelled from the spec: `Message::nth(i)` as used by the sources -
for an array message the content of the i-th child, for an inline message
the i-th whitespace token, for a plain message its own content at index 0
(`key_hash` reads `req.nth(pos)`, the DEL/EXISTS aggregation reads
`reply.nth(0)` of an integer reply, `get_cmd_type` reads `nth(0)`). -/
def RespElem.nth (m : RespElem) (i : Nat) : Option (List Nat) :=
  match m with
  | .array items => (items.get? i).bind RespElem.content
  | .inlineBody parts => parts.get? i
  | other => if i = 0 then other.content else none

/-! ## Errors (`src/com.rs`) -/

/-- Embeds the `AsError` variants of `src/com.rs` that the embedded code
paths construct (payload-carrying config/IO variants that never reach a
reply slot are omitted). -/
inductive AsError : Type where
  | BadMessage
  | BadRequest
  | RequestNotSupport
  | NoAuth
  | AuthWrong
  | RequestInlineWithMultiKeys
  | BadReply
  | CmdTimeout
  | ProxyFail
  | RequestReachMaxCycle
  | ClusterFailDispatch
  | BackendClosedError (addr : List Nat)
  | SystemError
deriving DecidableEq, Repr

/-- Byte rendering of an `AsError` per the `thiserror` display strings in
`src/com.rs`. -/
def AsError.text : AsError → List Nat
  | .BadMessage => ("invalid message".data.map Char.toNat)
  | .BadRequest => ("message is ok but request bad or not allowed".data.map Char.toNat)
  | .RequestNotSupport => ("request not supported".data.map Char.toNat)
  | .NoAuth => ("NOAUTH Authentication required.".data.map Char.toNat)
  | .AuthWrong => ("WRONGPASS invalid username-password pair or user is disabled.".data.map Char.toNat)
  | .RequestInlineWithMultiKeys => ("inline request don\x27t support multi keys".data.map Char.toNat)
  | .BadReply => ("message reply is bad".data.map Char.toNat)
  | .CmdTimeout => ("command timeout".data.map Char.toNat)
  | .ProxyFail => ("proxy fail".data.map Char.toNat)
  | .RequestReachMaxCycle => ("fail due retry send, reached limit".data.map Char.toNat)
  | .ClusterFailDispatch => ("cluster fail to proxy command".data.map Char.toNat)
  | .BackendClosedError addr =>
      ("remote connection has been active closed: ".data.map Char.toNat) ++ addr
  | .SystemError => ("fail to load system info".data.map Char.toNat)

/-- Embeds `impl IntoReply<Message> for AsError` in `src/protocol/redis.rs`
(lines 1206-1218): the display string as a RESP error message. -/
def AsError.intoReply (e : AsError) : RespElem := .error e.text

/-! ## Command flags and kinds (`src/protocol.rs`) -/

/-- Embeds the `CmdFlags` bitset of `src/protocol.rs` (DONE, ASK, MOVED,
NOREPLY, QUIET, RETRY, ERROR), one Bool per bit. -/
structure CmdFlags where
  done : Bool
  ask : Bool
  moved : Bool
  noreply : Bool
  quiet : Bool
  retry : Bool
  error : Bool
deriving DecidableEq, Repr

/-- Embeds `CmdFlags::empty()`. -/
def CmdFlags.emptyFlags : CmdFlags := ⟨false, false, false, false, false, false, false⟩

/-- Embeds the `CmdType` enum of `src/protocol.rs`. -/
inductive CmdType : Type where
  | Read
  | Write
  | Ctrl
  | NotSupport
  | MSet
  | MGet
  | Exists
  | Eval
  | Del
  | Auth
  | Info
  | ReadAll
  | CountAll
  | Command
  | Client
  | Module
  | Scan
  | Memory
deriving DecidableEq, Repr

/-! ## The redis `Command` (`src/protocol/redis.rs`) -/

/-- Embeds the `Command` struct of `src/protocol/redis.rs` (lines 324-338):
flags, command type, retry cycle, request message, optional reply, optional
sub-commands.  The `total_tracker` / `remote_tracker` timing guards are
metric timers over wall-clock time; the only fact the control flow reads
from them ("has this command been sent, and how long ago") is carried
explicitly by the Back-task model below. -/
inductive Command : Type where
  | mk (flags : CmdFlags) (cmd_type : CmdType) (cycle : Nat) (req : RespElem)
       (reply : Option RespElem) (subs : Option (List Command))

namespace Command

def flags : Command → CmdFlags
  | .mk f _ _ _ _ _ => f

def cmd_type : Command → CmdType
  | .mk _ t _ _ _ _ => t

def cycle : Command → Nat
  | .mk _ _ cy _ _ _ => cy

def req : Command → RespElem
  | .mk _ _ _ r _ _ => r

def reply : Command → Option RespElem
  | .mk _ _ _ _ rep _ => rep

def subs : Command → Option (List Command)
  | .mk _ _ _ _ _ s => s

/-- Embeds `Command::is_done` (redis.rs lines 729-738): a command with
subs is done when every sub is done; a leaf command reads its DONE flag. -/
def is_done : Command → Bool
  | .mk f _ _ _ _ none => f.done
  | .mk _ _ _ _ _ (some l) => l.attach.all (fun c => c.1.is_done)
decreasing_by
  have := List.sizeOf_lt_of_mem c.2
  simp only [Command.mk.sizeOf_spec, Option.some.sizeOf_spec]
  omega

/-- Embeds `Command::is_error` (redis.rs lines 799-808): with subs, any
erroneous sub; for a leaf, the ERROR flag. -/
def is_error : Command → Bool
  | .mk f _ _ _ _ none => f.error
  | .mk _ _ _ _ _ (some l) => l.attach.any (fun c => c.1.is_error)
decreasing_by
  have := List.sizeOf_lt_of_mem c.2
  simp only [Command.mk.sizeOf_spec, Option.some.sizeOf_spec]
  omega

/-- Embeds `Command::set_done` (redis.rs lines 747-749): sets the DONE
flag. -/
def set_done : Command → Command
  | .mk f t cy r rep s => .mk { f with done := true } t cy r rep s

/-- Embeds `Command::unset_done` (redis.rs lines 751-753): clears the DONE
flag, leaving the reply slot as it is. -/
def unset_done : Command → Command
  | .mk f t cy r rep s => .mk { f with done := false } t cy r rep s

/-- Embeds `Command::unset_error` (redis.rs lines 755-757): clears the
ERROR flag. -/
def unset_error : Command → Command
  | .mk f t cy r rep s => .mk { f with error := false } t cy r rep s

/-- Embeds the flag-only `Command::set_error` (redis.rs lines 759-761):
sets the ERROR flag and nothing else. -/
def set_error_flag : Command → Command
  | .mk f t cy r rep s => .mk { f with error := true } t cy r rep s

/-- Embeds `Command::set_reply` (redis.rs lines 740-745): installs the
reply, sets DONE (via `set_done`), and drops the remote timer. -/
def set_reply (c : Command) (r : RespElem) : Command :=
  match c with
  | .mk f t cy rq _ s => Command.set_done (.mk f t cy rq (some r) s)

/-- Embeds `Command::can_cycle` (redis.rs lines 767-769) with
`MAX_CYCLE = 1`. -/
def can_cycle (c : Command) : Bool := c.cycle < 1

/-- Embeds `Command::add_cycle` (redis.rs lines 771-773). -/
def add_cycle : Command → Command
  | .mk f t cy r rep s => .mk f t (cy + 1) r rep s

end Command

/-- Embeds the redis `Cmd` handle (redis.rs lines 38-43): the shared
command state plus the handle-local waker and address override.  The Arc
plus RwLock sharing is represented by working on the command state value
directly; wakers are opaque (a task identifier). -/
structure RCmd where
  command : Command
  waker : Option Nat
  addr : Option (List Nat)

/-- Embeds `Command::into_cmd` (redis.rs lines 360-366): wraps a command
with no waker and no address override. -/
def Command.into_cmd (c : Command) : RCmd := ⟨c, none, none⟩

/-- Embeds the `Request::set_error` impl for the redis `Cmd` (redis.rs
lines 133-140): renders the error as a RESP error message, installs it as
the reply, then sets the ERROR flag. -/
def RCmd.set_error (c : RCmd) (e : AsError) : RCmd :=
  { c with command := (c.command.set_reply e.intoReply).set_error_flag }

/-- Embeds `Request::set_reply` for the redis `Cmd` (redis.rs lines
127-131): installs the reply (then wakes the waker, a scheduling effect
with no command state). -/
def RCmd.set_reply (c : RCmd) (r : RespElem) : RCmd :=
  { c with command := c.command.set_reply r }

/-- Embeds `Request::register_waker` (redis.rs lines 119-121). -/
def RCmd.register_waker (c : RCmd) (w : Nat) : RCmd :=
  { c with waker := some w }

/-! ## Fan-out constructors and reply aggregation (`src/protocol/redis.rs`)

In the source a sub-command is stored as a `Cmd` handle; every constructor
builds those handles with `into_cmd` (waker and addr both `None`), and all
shared-state reads (`is_done`, reply aggregation) go through the inner
`Command`, so `Command.subs` here holds the inner `Command` values. -/

/-- Embeds `Command::mk_subs` (redis.rs lines 908-961), the DEL / EXISTS /
MGET fan-out: on an array `[verb, k1, ..., kn]` it builds one sub-command
`[verb, ki]` per key and a parent holding them; on a non-array message it
returns a command already answered with `RequestInlineWithMultiKeys`.  The
source slices `array[1..]`, which panics on an empty array (`none` here);
that shape cannot reach `mk_subs` because an empty array has no verb and
is classified `NotSupport` first. -/
def mk_subs (flags : CmdFlags) (ctype : CmdType) (msg : RespElem) : Option RCmd :=
  match msg with
  | .array [] => none
  | .array (verb :: keys) =>
      let subsList := keys.map (fun k =>
        Command.mk flags ctype 0 (.array [verb, k]) none none)
      some (Command.mk flags ctype 0 (.array (verb :: keys)) none (some subsList)).into_cmd
  | other =>
      some (((Command.mk flags ctype 0 other none none).into_cmd).set_reply
        AsError.RequestInlineWithMultiKeys.intoReply)

/-- Embeds `MAX_KEY_COUNT` (redis.rs line 968). -/
def MAX_KEY_COUNT : Nat := 10000

/-- Embeds the `array[1..].chunks(2)` loop body of `Command::mk_mset`
(redis.rs lines 857-878): each chunk yields a sub-command
`[verb, chunk[0], chunk[1]]`; a trailing chunk of length 1 makes the
source index `chunk[1]` out of bounds and panic (`none` here). -/
def mset_chunk_subs (flags : CmdFlags) (ctype : CmdType) (verb : RespElem) :
    List RespElem → Option (List Command)
  | [] => some []
  | [_] => none
  | k :: v :: rest =>
      (mset_chunk_subs flags ctype verb rest).map
        (fun l => Command.mk flags ctype 0 (.array [verb, k, v]) none none :: l)

/-- Embeds `Command::mk_mset` (redis.rs lines 844-906): on an array it
first hits `unimplemented!()` when the element count exceeds
`MAX_KEY_COUNT` (`none` here), then chunks the elements after the verb in
pairs into SET sub-commands (panicking on an unpaired trailing element);
a non-array message is answered with `RequestInlineWithMultiKeys`. -/
def mk_mset (flags : CmdFlags) (ctype : CmdType) (msg : RespElem) : Option RCmd :=
  match msg with
  | .array items =>
      if MAX_KEY_COUNT < items.length then none
      else
        match items with
        | [] => none
        | verb :: rest =>
            (mset_chunk_subs flags ctype verb rest).map (fun subsList =>
              (Command.mk flags ctype 0 (.array (verb :: rest)) none (some subsList)).into_cmd)
  | other =>
      some (((Command.mk flags ctype 0 other none none).into_cmd).set_reply
        AsError.RequestInlineWithMultiKeys.intoReply)

/-- Embeds one step of the summing loop in the DEL/EXISTS/COUNTALL branch
of `Command::reply_cmd` (redis.rs lines 594-599): parse the sub-reply's
first field as `usize` (0 when missing or unparsable) and add it to the
running total (a `usize` addition, hence modulo `2 ^ 64`). -/
def del_sum_step (acc : Nat) (sub : Command) : Nat :=
  match sub.reply.bind (fun x => x.nth 0) with
  | some data => (acc + (btoi_usize data).getD 0) % U64
  | none => acc

/-- Embeds the `is_del || is_exists || is_count_all` branch of
`Command::reply_cmd` (redis.rs lines 586-607), the only branch a
Del/Exists-typed command can reach (the earlier `if` guards test other
command types): with subs, append `:` then the decimal total of the subs'
integer replies then CRLF; without subs append `:0\r\n`.  The source
returns the number of bytes appended; the model returns the buffer. -/
def reply_cmd_sum (c : Command) (buf : List Nat) : List Nat :=
  match c.subs with
  | some subsList => buf ++ [58] ++ itoa (subsList.foldl del_sum_step 0) ++ [13, 10]
  | none => buf ++ [58, 48, 13, 10]

/-- Modelled from the spec: `Message::new_auth` (resp.rs is not among the
sources) builds the AUTH frame sent to a freshly connected backend, a
two-element RESP array of bulk strings `AUTH <password>`. -/
def Message.new_auth (auth : List Nat) : RespElem :=
  .array [.bulk (some [65, 85, 84, 72]), .bulk (some auth)]

/-- Embeds `Request::auth_request` for the redis `Cmd` (redis.rs lines
70-86): empty flags, the AUTH command type (what the command table yields
for the AUTH verb), cycle 0, the AUTH message, no reply, no subs, wrapped
by `into_cmd` - so the handle's waker is `None`. -/
def auth_request (auth : List Nat) : RCmd :=
  (Command.mk CmdFlags.emptyFlags CmdType.Auth 0 (Message.new_auth auth) none none).into_cmd

/-- Embeds the last-handle drop of a redis `Cmd`: `src/protocol/redis.rs`
declares no `Drop` impl for `Cmd` (lines 38-43 define only the struct), so
dropping a handle runs the field destructors and leaves the shared command
state untouched. -/
def redis_drop_hook (c : RCmd) : RCmd := c

/-! ## The memcached `Command` (`src/protocol/mc.rs`)

`src/protocol/mc/msg.rs` is not among the sources; the memcached message
is modelled from the spec only as far as the embedded paths need it. -/

/-- Modelled from the spec: a memcached wire message; the embedded paths
only construct error replies from an `AsError` (the codec "emits an inline
ERROR reply") and otherwise treat message payloads as opaque bytes. -/
inductive McMessage : Type where
  | raw (d : List Nat)
  | errorReply (e : AsError)

/-- Embeds the mc `Command` struct (mc.rs lines 213-227).  As for redis,
sub-handles are built with empty wakers and all shared-state reads go
through the inner command, so `subs` holds the inner command values; the
metric trackers are omitted as for redis. -/
inductive McCommand : Type where
  | mk (ctype : CmdType) (flags : CmdFlags) (cycle : Nat) (req : McMessage)
       (reply : Option McMessage) (subs : Option (List McCommand))

namespace McCommand

def flags : McCommand → CmdFlags
  | .mk _ f _ _ _ _ => f

def reply : McCommand → Option McMessage
  | .mk _ _ _ _ rep _ => rep

def subs : McCommand → Option (List McCommand)
  | .mk _ _ _ _ _ s => s

/-- Embeds mc `Command::is_done` (mc.rs lines 230-232): the DONE flag of
the inner command. -/
def inner_is_done (c : McCommand) : Bool := c.flags.done

/-- Embeds mc `Command::set_reply` (mc.rs lines 246-251): installs the
reply and sets DONE. -/
def set_reply (c : McCommand) (r : McMessage) : McCommand :=
  match c with
  | .mk t f cy rq _ s => .mk t { f with done := true } cy rq (some r) s

/-- Embeds mc `Command::set_error` (mc.rs lines 253-256): `set_reply`
followed by setting the ERROR flag. -/
def set_error (c : McCommand) (r : McMessage) : McCommand :=
  match c.set_reply r with
  | .mk t f cy rq rep s => .mk t { f with error := true } cy rq rep s

/-- Embeds mc `Command::add_cycle` (mc.rs lines 242-244). -/
def add_cycle : McCommand → McCommand
  | .mk t f cy rq rep s => .mk t f (cy + 1) rq rep s

end McCommand

/-- Embeds the mc `Cmd` handle (mc.rs lines 20-24). -/
structure McCmd where
  command : McCommand
  waker : Option Nat

/-- Embeds `Request::is_done` for the mc `Cmd` (mc.rs lines 88-94): with
subs, every sub must be done; otherwise the inner DONE flag. -/
def McCmd.is_done (c : McCmd) : Bool :=
  match c.command.subs with
  | some l => l.all (fun s => s.inner_is_done)
  | none => c.command.inner_is_done

/-- Embeds `Request::set_error` for the mc `Cmd` (mc.rs lines 124-127):
render the error as a reply message and install it with the ERROR flag.
The `IntoReply<Message> for AsError` impl lives in the missing msg.rs and
is modelled as `McMessage.errorReply`. -/
def McCmd.set_error (c : McCmd) (e : AsError) : McCmd :=
  { c with command := c.command.set_error (.errorReply e) }

/-- Embeds `impl Drop for Cmd` in mc.rs (lines 26-32): when a handle is
dropped while the command is not done, a `ProxyFail` error reply is
recorded on the command's own slot. -/
def mc_drop_hook (c : McCmd) : McCmd :=
  if ¬ c.is_done then c.set_error AsError.ProxyFail else c

/-! ## The Front task (`src/proxy/standalone/front.rs`)

The Front future's queue discipline is modelled as a deterministic step
function over the per-tick outcomes of its two I/O handles.  Commands are
identified by a number; their done-status is supplied each tick by an
oracle `isDone` because it is flipped concurrently by whichever Back task
(or error path) completes the command - the model therefore quantifies
over every possible backend completion order.  The dispatch block
(front.rs lines 144-191) only mutates shared command state (routing, error
marking) and never touches the queue, so its effect is absorbed by the
oracle; the hash it computes is modelled separately by
`front_dispatch_hash`. -/

/-- Outcome of `poll_ready` on the client sink this tick. -/
inductive SinkPoll : Type where
  | ready
  | pending
  | sinkErr
deriving DecidableEq, Repr

/-- Outcome of `poll_next` on the client stream this tick. -/
inductive StreamPoll : Type where
  | item (c : Nat)
  | decodeErr
  | closed
  | pending

/-- Per-tick environment of the Front future. -/
structure FrontInput where
  isDone : Nat → Bool
  sink : SinkPoll
  startSendOk : Bool
  stream : StreamPoll

/-- State of the Front future: the `sent_queue` and the error counter from
front.rs, plus the histories needed to state ordering: `emitted` is the
sequence of replies written to the client sink, `decoded` the sequence of
commands pulled off the client stream. -/
structure FrontState where
  sent_queue : List Nat
  upstream_poll_error : Nat
  emitted : List Nat
  decoded : List Nat

/-- Initial state of a freshly accepted connection (front.rs `Front::new`). -/
def FrontState.init : FrontState := ⟨[], 0, [], []⟩

/-- Embeds `FRONTEND_MAX_POLL_ERROR` (front.rs line 21). -/
def FRONTEND_MAX_POLL_ERROR : Nat := 10

/-- Embeds the head-of-line drain of `Front::poll` (front.rs lines
101-138): the head of `sent_queue` is popped; if it is not done it is
pushed back to the front; if it is done and the sink is ready it is
`start_send`-ed (appended to `emitted` on success, lost on a send error);
if the sink reports an error the error counter grows (past the cap the
task finishes) and the popped command is not re-queued; if the sink is
pending the popped command is likewise not re-queued. -/
def frontDrain (s : FrontState) (inp : FrontInput) : Bool × FrontState :=
  match s.sent_queue with
  | [] => (true, s)
  | c :: rest =>
    if inp.isDone c then
      match inp.sink with
      | .ready =>
          if inp.startSendOk then
            (true, { s with sent_queue := rest, emitted := s.emitted ++ [c] })
          else
            (true, { s with sent_queue := rest })
      | .sinkErr =>
          let e := s.upstream_poll_error + 1
          (decide (e ≤ FRONTEND_MAX_POLL_ERROR),
           { s with sent_queue := rest, upstream_poll_error := e })
      | .pending => (true, { s with sent_queue := rest })
    else
      (true, { s with sent_queue := c :: rest })

/-- Embeds the stream step of `Front::poll` (front.rs lines 140-213): a
decoded command is pushed onto the tail of `sent_queue` (and recorded in
`decoded`); a decode error is only logged; a closed stream finishes the
task. -/
def frontStream (s : FrontState) (inp : FrontInput) : Bool × FrontState :=
  match inp.stream with
  | .item c => (true, { s with sent_queue := s.sent_queue ++ [c],
                               decoded := s.decoded ++ [c] })
  | .decodeErr => (true, s)
  | .closed => (false, s)
  | .pending => (true, s)

/-- Embeds one `Front::poll` tick (front.rs lines 95-216): the
head-of-line drain, then - unless the drain finished the task - one
stream poll.  Returns `(still_running, state)`. -/
def frontTick (s : FrontState) (inp : FrontInput) : Bool × FrontState :=
  match frontDrain s inp with
  | (false, s1) => (false, s1)
  | (true, s1) => frontStream s1 inp

/-- Runs the Front future over a sequence of tick environments, stopping
when the future returns ready. -/
def frontRun : FrontState → List FrontInput → FrontState
  | s, [] => s
  | s, inp :: rest =>
    match frontTick s inp with
    | (true, s1) => frontRun s1 rest
    | (false, s1) => s1

/-- Embeds front.rs line 152: the hash the Front passes to the ring lookup
is `cmd.key_hash("".as_bytes(), fnv1a64)` - the configured `hash_tag`
field of the Front (first argument here) is not what is passed; the
literal empty slice is. -/
def front_dispatch_hash (_hash_tag : List Nat) (key_data : List Nat) : Nat :=
  fnv1a64 (trim_hash_tag key_data [])

/-- Embeds `Command::key_hash` (redis.rs lines 696-707) for a command
whose key field is present: the hasher applied to the key trimmed by the
given hash tag. -/
def key_hash (key_data : List Nat) (hash_tag : List Nat) : Nat :=
  fnv1a64 (trim_hash_tag key_data hash_tag)

/-! ## The Back task (`src/proxy/standalone/back.rs`)

One `Back::poll` tick, modelled as a step function.  Commands are
identified by number; mutations of shared command state are emitted as
effects so the theorems can say which command received which reply.  The
`sub_cmds` stack is a Rust `Vec` pushed/popped at its end; the model keeps
the top of the stack at the head of the list.  Whether the stored
command's response timer is armed (`get_sent_time().is_some()`) is the
`sent` flag of the store entry; whether the armed timer has exceeded
`resp_timeout` this tick is supplied as the input `elapsedExceeded`, since
it is a reading of wall-clock time. -/

/-- A command as it arrives on the channel from a Front: its identity, the
handle waker, the cycle count of its inner command, and the identities of
its sub-commands when it has subs. -/
structure ChanCmd where
  id : Nat
  waker : Option Nat
  cycle : Nat
  subIds : Option (List Nat)

/-- Outcome of `input.recv_timeout(CHANNEL_FETCH_TIMEOUT)` this tick. -/
inductive ChanRecv : Type where
  | item (c : ChanCmd)
  | timeout
  | disconnected

/-- Outcome of `poll_next` on the backend reply stream this tick. -/
inductive UpPoll : Type where
  | item (r : Except AsError RespElem)
  | closed
  | pending

/-- Per-tick environment of the Back future. -/
structure BackInput where
  chan : ChanRecv
  elapsedExceeded : Bool
  sink : SinkPoll
  startSendOk : Bool
  upstream : UpPoll

/-- Shared-command-state mutations performed during a tick. -/
inductive BackEffect : Type where
  | setError (id : Nat) (e : AsError)
  | setReply (id : Nat) (r : RespElem)
  | sendReq (id : Nat)
  | registerWaker (id : Nat) (w : Nat)
  | addCycle (id : Nat)

/-- The single-slot store: a command identity, its cycle count, and
whether its request has already been sent (remote timer armed). -/
structure StoreEntry where
  id : Nat
  cycle : Nat
  sent : Bool
deriving DecidableEq, Repr

/-- State of the Back future (back.rs lines 20-59). -/
structure BackState where
  store : Option StoreEntry
  sub_cmds : List (Nat × Nat)
  delayed : Nat
  downstream_poll_error : Nat
deriving DecidableEq, Repr

/-- Initial state of a fresh backend connection (back.rs `Back::new`). -/
def BackState.init : BackState := ⟨none, [], 0, 0⟩

/-- Embeds `DOWNSTREAM_MAX_POLL_ERROR` (back.rs line 13). -/
def DOWNSTREAM_MAX_POLL_ERROR : Nat := 10

/-- Embeds one `Back::poll` tick (back.rs lines 96-246).  Phase 1 refills
an empty store: a non-empty sub-stack pops its top; otherwise the channel
is received from - a command without a waker is dropped on the floor, a
command with subs registers the waker on each sub, pushes them (reversed)
onto the stack and pops the first into the store (an empty subs list makes
the source's `expect` panic: `none`), a leaf command becomes the store,
and a disconnected channel finishes the task.  Phase 2: an already-sent
store entry whose timer exceeded `resp_timeout` is completed with
`CmdTimeout`, the store is cleared and `delayed` incremented; an unsent
entry is sent when the sink is ready (send error: `ProxyFail`, store
cleared), on a sink error it is cycled or failed (and past the error cap
the task finishes), on a pending sink it stays.  Phase 3 (only with a
non-empty store): an arriving reply is discarded (decrementing `delayed`)
when `delayed > 0`, otherwise set on the stored command and the store
cleared; an error completes the stored command with it; a closed stream
finishes the task.  Returns `some (still_running, state, effects)`. -/
def backTick (s : BackState) (inp : BackInput) :
    Option (Bool × BackState × List BackEffect) :=
  -- Phase 1: refill the store.
  let refilled : Option (Bool × BackState × List BackEffect) :=
    match s.store with
    | some _ => some (true, s, [])
    | none =>
      match s.sub_cmds with
      | (i, cy) :: rest => some (true, { s with store := some ⟨i, cy, false⟩, sub_cmds := rest }, [])
      | [] =>
        match inp.chan with
        | .item c =>
          match c.waker with
          | some w =>
            match c.subIds with
            | some subIds =>
              match subIds with
              | [] => none
              | first :: others =>
                some (true,
                  { s with store := some ⟨first, 0, false⟩,
                           sub_cmds := others.map (fun i => (i, 0)) },
                  subIds.map (fun i => BackEffect.registerWaker i w))
            | none => some (true, { s with store := some ⟨c.id, c.cycle, false⟩ }, [])
          | none => some (true, s, [])
        | .timeout => some (true, s, [])
        | .disconnected => some (false, s, [])
  match refilled with
  | none => none
  | some (false, s1, eff1) => some (false, s1, eff1)
  | some (true, s1, eff1) =>
    -- Phase 2: timeout check or send.
    let sent : Bool × BackState × List BackEffect :=
      match s1.store with
      | none => (true, s1, eff1)
      | some entry =>
        if entry.sent then
          if inp.elapsedExceeded then
            (true, { s1 with store := none, delayed := s1.delayed + 1 },
             eff1 ++ [BackEffect.setError entry.id AsError.CmdTimeout])
          else (true, s1, eff1)
        else
          match inp.sink with
          | .ready =>
              if inp.startSendOk then
                (true, { s1 with store := some { entry with sent := true } },
                 eff1 ++ [BackEffect.sendReq entry.id])
              else
                (true, { s1 with store := none },
                 eff1 ++ [BackEffect.setError entry.id AsError.ProxyFail])
          | .sinkErr =>
              let e := s1.downstream_poll_error + 1
              let cycled : BackState × List BackEffect :=
                if entry.cycle < 1 then
                  ({ s1 with store := none, downstream_poll_error := e },
                   eff1 ++ [BackEffect.addCycle entry.id])
                else
                  ({ s1 with store := none, downstream_poll_error := e },
                   eff1 ++ [BackEffect.setError entry.id AsError.ProxyFail])
              (decide (e ≤ DOWNSTREAM_MAX_POLL_ERROR), cycled)
          | .pending => (true, s1, eff1)
    match sent with
    | (false, s2, eff2) => some (false, s2, eff2)
    | (true, s2, eff2) =>
      -- Phase 3: poll the backend reply stream while a command is stored.
      match s2.store with
      | none => some (true, s2, eff2)
      | some entry =>
        match inp.upstream with
        | .item (.ok r) =>
            if 0 < s2.delayed then
              some (true, { s2 with delayed := s2.delayed - 1 }, eff2)
            else
              some (true, { s2 with store := none },
                eff2 ++ [BackEffect.setReply entry.id r])
        | .item (.error e) =>
            some (true, { s2 with store := none },
              eff2 ++ [BackEffect.setError entry.id e])
        | .closed => some (false, s2, eff2)
        | .pending => some (true, s2, eff2)

/-- Embeds the channel priming of `StandaloneCluster::connect`
(standalone.rs lines 182-199): after a successful backend connect, a
cluster with a non-empty auth string sends `auth_request` into the
backend's channel before the sender is registered in the ring, so it is
the first command the Back task receives. -/
def connect_initial_channel (auth : List Nat) : List RCmd :=
  if auth ≠ [] then [auth_request auth] else []

/-! ## Stated properties -/

/-- The Front ordering invariant: the replies already written to the
client followed by the commands still queued are exactly the decoded
request sequence. -/
def FrontState.ordered (s : FrontState) : Prop :=
  s.emitted ++ s.sent_queue = s.decoded

/-- The claimed redis command invariant: the DONE flag agrees with the
presence of a reply, and the ERROR flag implies the DONE flag. -/
def CmdInv (c : Command) : Prop :=
  (c.flags.done = true ↔ (c.reply).isSome = true) ∧
  (c.flags.error = true → c.flags.done = true)

/-- The same invariant for the memcached command. -/
def McInv (c : McCommand) : Prop :=
  (c.flags.done = true ↔ (c.reply).isSome = true) ∧
  (c.flags.error = true → c.flags.done = true)

/-! ## Helper lemmas -/

/-- `position` returns the index of an element satisfying `p` when every
earlier element fails `p`. -/
theorem position_eq_some_of (p : Nat → Bool) :
    ∀ (l : List Nat) (i : Nat) (x : Nat), l[i]? = some x → p x = true →
      (∀ j y, j < i → l[j]? = some y → p y = false) → position p l = some i := by
  intro l
  induction l with
  | nil => intro i x hx; simp at hx
  | cons a t ih =>
    intro i x hx hp hmin
    cases i with
    | zero =>
      simp at hx
      subst hx
      simp [position, hp]
    | succ n =>
      have ha : p a = false := hmin 0 a (Nat.succ_pos n) (by simp)
      simp at hx
      have := ih n x hx hp (fun j y hj hy => hmin (j + 1) y (by omega) (by simpa using hy))
      simp [position, ha, this]

/-- `position` returns `none` when no element satisfies `p`. -/
theorem position_eq_none_of (p : Nat → Bool) :
    ∀ l : List Nat, (∀ x ∈ l, p x = false) → position p l = none := by
  intro l
  induction l with
  | nil => intro _; rfl
  | cons a t ih =>
    intro h
    simp [position, h a (by simp), ih (fun x hx => h x (by simp [hx]))]

/-! ## C9: trim_hash_tag -/

/-- C9: for any key and hash tag, `trim_hash_tag` returns the key
unchanged when the tag is not exactly two bytes, or when the open byte
does not occur in the key, or when no close byte occurs at-or-after the
first open byte, or when the first such close byte is at offset at most 1
from the open byte; and when the tag is `[o, c]`, the first `o` is at
index `b` and the first `c` at-or-after it is at offset `e > 1`, it
returns the bytes strictly between those two positions. -/
theorem repust_C9 (key tag : List Nat) :
    (tag.length ≠ 2 → trim_hash_tag key tag = key) ∧
    (∀ o c, tag = [o, c] →
      ((∀ x ∈ key, x ≠ o) → trim_hash_tag key tag = key) ∧
      (∀ b, key[b]? = some o →
        (∀ j y, j < b → key[j]? = some y → y ≠ o) →
        ((∀ x ∈ key.drop b, x ≠ c) → trim_hash_tag key tag = key) ∧
        (∀ e, (key.drop b)[e]? = some c →
          (∀ j y, j < e → (key.drop b)[j]? = some y → y ≠ c) →
          (1 < e → trim_hash_tag key tag = (key.drop (b + 1)).take (e - 1)) ∧
          (e ≤ 1 → trim_hash_tag key tag = key)))) := by
  constructor
  · intro hlen
    match tag with
    | [] => rfl
    | [_] => rfl
    | [_, _] => simp at hlen
    | _ :: _ :: _ :: _ => rfl
  · intro o c htag
    subst htag
    constructor
    · intro hno
      have hpos : position (fun x => x == o) key = none :=
        position_eq_none_of _ key (fun x hx => by simp [hno x hx])
      simp [trim_hash_tag, hpos]
    · intro b hb hbmin
      have hpos : position (fun x => x == o) key = some b :=
        position_eq_some_of _ key b o hb (by simp)
          (fun j y hj hy => by simp [hbmin j y hj hy])
      constructor
      · intro hnoc
        have hpos2 : position (fun x => x == c) (key.drop b) = none :=
          position_eq_none_of _ _ (fun x hx => by simp [hnoc x hx])
        simp [trim_hash_tag, hpos, hpos2]
      · intro e he hemin
        have hpos2 : position (fun x => x == c) (key.drop b) = some e :=
          position_eq_some_of _ _ e c he (by simp)
            (fun j y hj hy => by simp [hemin j y hj hy])
        constructor
        · intro h1
          simp [trim_hash_tag, hpos, hpos2, h1]
        · intro h1
          have : ¬ (1 < e) := by omega
          simp [trim_hash_tag, hpos, hpos2, this]

/-- C9 witness: in the key `1 5 6 2 7` with tag `(1, 2)` the open byte is
at index 0 and the close byte at offset 3, so the trimmed key is `5 6`. -/
theorem repust_C9_witness : trim_hash_tag [1, 5, 6, 2, 7] [1, 2] = [5, 6] := by
  have h := (((repust_C9 [1, 5, 6, 2, 7] [1, 2]).2 1 2 rfl).2 0 (by decide)
    (fun j y hj _ => absurd hj (by omega))).2 3 (by decide)
    (by intro j y hj hy; interval_cases j <;> simp_all <;> omega)
  simpa using h.1 (by decide)

/-! ## C1 and C2: the Front queue discipline -/

/-- One Front tick with a ready, successfully writing sink preserves the
ordering invariant, for every done-status oracle and stream outcome. -/
theorem frontDrain_ordered (s : FrontState) (inp : FrontInput)
    (h : s.ordered) (hsink : inp.sink = SinkPoll.ready)
    (hsend : inp.startSendOk = true) : (frontDrain s inp).2.ordered := by
  obtain ⟨q, err, em, dec⟩ := s
  unfold FrontState.ordered at h ⊢
  simp only at h
  cases q with
  | nil => exact h
  | cons c rest =>
    cases hd : inp.isDone c
    · simpa [frontDrain, hd] using h
    · simp only [frontDrain, hd, hsink, hsend, if_true]
      simpa using h

theorem frontStream_ordered (s : FrontState) (inp : FrontInput)
    (h : s.ordered) : (frontStream s inp).2.ordered := by
  unfold FrontState.ordered at h ⊢
  unfold frontStream
  cases inp.stream with
  | item c =>
    simp only
    rw [← List.append_assoc, h]
  | decodeErr => exact h
  | closed => exact h
  | pending => exact h

theorem frontTick_ordered (s : FrontState) (inp : FrontInput)
    (h : s.ordered) (hsink : inp.sink = SinkPoll.ready)
    (hsend : inp.startSendOk = true) : (frontTick s inp).2.ordered := by
  have h1 := frontDrain_ordered s inp h hsink hsend
  unfold frontTick
  cases hstep : frontDrain s inp with
  | mk running s1 =>
    cases running
    · simpa [hstep] using h1
    · exact frontStream_ordered s1 inp (by simpa [hstep] using h1)

/-- The invariant holds along any run whose ticks all have a ready,
successfully writing sink. -/
theorem frontRun_ordered :
    ∀ (inputs : List FrontInput) (s : FrontState), s.ordered →
      (∀ inp ∈ inputs, inp.sink = SinkPoll.ready ∧ inp.startSendOk = true) →
      (frontRun s inputs).ordered := by
  intro inputs
  induction inputs with
  | nil => intro s h _; exact h
  | cons inp rest ih =>
    intro s h hall
    have h1 := frontTick_ordered s inp h (hall inp (by simp)).1 (hall inp (by simp)).2
    unfold frontRun
    cases hstep : frontTick s inp with
    | mk running s1 =>
      cases running
      · simpa [hstep] using h1
      · exact ih s1 (by simpa [hstep] using h1)
            (fun i hi => hall i (by simp [hi]))

/-- C1: over any run of the Front future in which the client sink accepts
every write (so every tick's sink poll is ready and the send succeeds),
and for every possible done-schedule of the commands - i.e. regardless of
which backend completed first - the sequence of replies written to the
client followed by the still-queued commands equals the decoded request
sequence; in particular the written replies are exactly the first
requests, in the order the client issued them (the identity
permutation). -/
theorem repust_C1 (inputs : List FrontInput)
    (hready : ∀ inp ∈ inputs, inp.sink = SinkPoll.ready ∧ inp.startSendOk = true) :
    (frontRun FrontState.init inputs).emitted ++ (frontRun FrontState.init inputs).sent_queue
        = (frontRun FrontState.init inputs).decoded ∧
    (frontRun FrontState.init inputs).decoded.take
        (frontRun FrontState.init inputs).emitted.length
        = (frontRun FrontState.init inputs).emitted := by
  have h := frontRun_ordered inputs FrontState.init rfl hready
  refine ⟨h, ?_⟩
  rw [← h]
  exact List.take_left _ _

/-- C1 witness: a concrete three-tick run - decode command 0, decode
command 1 while 0 is not yet done, then 0 completes and is written - ends
with reply 0 emitted, command 1 queued, both decoded in order. -/
theorem repust_C1_witness :
    (frontRun FrontState.init
        [⟨fun _ => false, .ready, true, .item 0⟩,
         ⟨fun _ => false, .ready, true, .item 1⟩,
         ⟨fun _ => true, .ready, true, .pending⟩]).emitted
      ++ (frontRun FrontState.init
        [⟨fun _ => false, .ready, true, .item 0⟩,
         ⟨fun _ => false, .ready, true, .item 1⟩,
         ⟨fun _ => true, .ready, true, .pending⟩]).sent_queue
      = (frontRun FrontState.init
        [⟨fun _ => false, .ready, true, .item 0⟩,
         ⟨fun _ => false, .ready, true, .item 1⟩,
         ⟨fun _ => true, .ready, true, .pending⟩]).decoded := by
  exact (repust_C1 _ (by intro inp hi; fin_cases hi <;> exact ⟨rfl, rfl⟩)).1

/-- C2: the code removes a DONE head from `sent_queue` even when the
client sink is pending.  Concretely: a state whose queue holds the single
done command 0, polled while the sink is pending, ends with an empty queue
and nothing emitted - the command was popped and not re-queued, so its
reply is lost, where the claim requires it to stay at the head. -/
theorem repust_C2 :
    (frontTick ⟨[0], 0, [], [0]⟩ ⟨fun _ => true, .pending, true, .pending⟩).2.sent_queue = []
    ∧ (frontTick ⟨[0], 0, [], [0]⟩ ⟨fun _ => true, .pending, true, .pending⟩).2.emitted = [] := by
  exact ⟨rfl, rfl⟩

/-! ## C3: the hash the Front passes to the ring lookup -/

/-- C3: with the two-byte hash tag `(123, 125)` (ASCII braces) configured
on the Front and the key `123 117 115 101 114 125 120` (the bytes of a
brace-tagged key), the hash the Front passes to the ring lookup is
`fnv1a64` of the whole key - front.rs line 152 hands `key_hash` the
literal empty slice instead of the configured tag - while `key_hash` with
the configured tag, as the claim requires, is `fnv1a64` of the trimmed key
`117 115 101 114`, and the two hashes differ. -/
theorem repust_C3 :
    front_dispatch_hash [123, 125] [123, 117, 115, 101, 114, 125, 120]
        = fnv1a64 [123, 117, 115, 101, 114, 125, 120]
    ∧ key_hash [123, 117, 115, 101, 114, 125, 120] [123, 125]
        = fnv1a64 [117, 115, 101, 114]
    ∧ front_dispatch_hash [123, 125] [123, 117, 115, 101, 114, 125, 120]
        ≠ key_hash [123, 117, 115, 101, 114, 125, 120] [123, 125] := by
  refine ⟨rfl, ?_, ?_⟩
  · show fnv1a64 (trim_hash_tag _ _) = _
    norm_num [trim_hash_tag, position]
  · decide

/-! ## C4: backend authentication -/

/-- C4: with the non-empty auth string `secret`, `connect` does enqueue
the AUTH request as the first command of the backend channel, but that
request is built with no waker, and the Back task's first tick receiving
it leaves the store empty and performs no effect at all - the AUTH command
is discarded at the channel (back.rs line 128), never written to the
backend connection, and no reply for it is ever consumed. -/
theorem repust_C4 :
    connect_initial_channel [115, 101, 99, 114, 101, 116]
        = [auth_request [115, 101, 99, 114, 101, 116]]
    ∧ (auth_request [115, 101, 99, 114, 101, 116]).waker = none
    ∧ backTick BackState.init
        ⟨.item ⟨7, (auth_request [115, 101, 99, 114, 101, 116]).waker, 0,
          ((auth_request [115, 101, 99, 114, 101, 116]).command.subs).map
            (fun l => l.map (fun _ => 0))⟩,
         false, .pending, true, .pending⟩
        = some (true, BackState.init, []) := by
  refine ⟨?_, rfl, rfl⟩
  simp [connect_initial_channel]

/-! ## C5: drop without DONE -/

/-- C5 counterexample: a pending redis command (here a decoded leaf read
with no reply) is not done, yet dropping its last handle leaves the
command state untouched - redis.rs declares no `Drop` impl for `Cmd`, so
no `ProxyFail` reply is recorded and the reply slot stays `none`,
contradicting the claim for the redis `Cmd` type. -/
theorem repust_C5_cex :
    ((Command.mk CmdFlags.emptyFlags CmdType.Read 0 (.array []) none none).into_cmd).command.is_done
        = false
    ∧ redis_drop_hook ((Command.mk CmdFlags.emptyFlags CmdType.Read 0 (.array []) none none).into_cmd)
        = (Command.mk CmdFlags.emptyFlags CmdType.Read 0 (.array []) none none).into_cmd
    ∧ (redis_drop_hook
         ((Command.mk CmdFlags.emptyFlags CmdType.Read 0 (.array []) none none).into_cmd)).command.reply
        = none := by
  refine ⟨?_, rfl, rfl⟩
  simp [Command.into_cmd, Command.is_done, CmdFlags.emptyFlags]

/-- C5 amended: for the memcached `Cmd` type, dropping a handle while the
command is not DONE records a `ProxyFail` error reply on the command's own
reply slot, setting both DONE and ERROR; the redis `Cmd` type has no drop
hook and records nothing. -/
theorem repust_C5 (c : McCmd) (h : c.is_done = false) :
    (mc_drop_hook c).command.reply = some (.errorReply .ProxyFail)
    ∧ (mc_drop_hook c).command.flags.error = true
    ∧ (mc_drop_hook c).command.flags.done = true := by
  obtain ⟨cmd, w⟩ := c
  unfold mc_drop_hook
  rw [h]
  cases cmd
  exact ⟨rfl, rfl, rfl⟩

/-- C5 witness: a concrete pending memcached command acquires the
`ProxyFail` reply at drop. -/
theorem repust_C5_witness :
    (mc_drop_hook ⟨McCommand.mk CmdType.Read CmdFlags.emptyFlags 0 (.raw []) none none, none⟩).command.reply
        = some (.errorReply .ProxyFail) :=
  (repust_C5 ⟨McCommand.mk CmdType.Read CmdFlags.emptyFlags 0 (.raw []) none none, none⟩ rfl).1

/-! ## C6: the DONE/reply/ERROR invariant -/

/-- C6 counterexample: the bare flag mutator `Command::set_error`
(redis.rs lines 759-761) applied to a freshly decoded pending command -
which satisfies the invariant - sets ERROR while DONE stays clear and the
reply slot stays `none`, so the resulting state violates the claimed
invariant; not every operation on a Command's state preserves it. -/
theorem repust_C6_cex :
    CmdInv (Command.mk CmdFlags.emptyFlags CmdType.Read 0 (.array []) none none)
    ∧ ¬ CmdInv ((Command.mk CmdFlags.emptyFlags CmdType.Read 0 (.array []) none none).set_error_flag) := by
  constructor
  · exact ⟨by simp [Command.flags, Command.reply, CmdFlags.emptyFlags], by simp [Command.flags, CmdFlags.emptyFlags]⟩
  · intro h
    have h2 := h.2 rfl
    simp [Command.flags, Command.set_error_flag, CmdFlags.emptyFlags] at h2

/-- C6 amended: the reply-installing operations preserve the invariant
on both command types - redis `set_reply`, the composite redis error path
(`set_reply` then the ERROR flag, as `Cmd::set_error` performs it),
`unset_error` and `add_cycle`, and memcached `set_reply` and `set_error` -
and for a command with subs, DONE is derived at read time as the
conjunction of the subs being done; but the bare flag mutators
(`set_done`, `unset_done`, and the flag-only `set_error`) do not all
preserve it. -/
theorem repust_C6 :
    (∀ (c : Command) (r : RespElem), CmdInv c → CmdInv (c.set_reply r))
    ∧ (∀ (c : Command) (e : AsError), CmdInv c →
        CmdInv ((c.set_reply e.intoReply).set_error_flag))
    ∧ (∀ c : Command, CmdInv c → CmdInv c.unset_error)
    ∧ (∀ c : Command, CmdInv c → CmdInv c.add_cycle)
    ∧ (∀ (f : CmdFlags) (t : CmdType) (cy : Nat) (r : RespElem)
         (rep : Option RespElem) (l : List Command),
        (Command.mk f t cy r rep (some l)).is_done = l.all Command.is_done)
    ∧ (∀ (c : McCommand) (r : McMessage), McInv c → McInv (c.set_reply r))
    ∧ (∀ (c : McCommand) (r : McMessage), McInv c → McInv (c.set_error r)) := by
  refine ⟨?_, ?_, ?_, ?_, ?_, ?_, ?_⟩
  · intro c r _
    cases c
    exact ⟨by simp [Command.set_reply, Command.set_done, Command.flags, Command.reply],
      by simp [Command.set_reply, Command.set_done, Command.flags]⟩
  · intro c e _
    cases c
    exact ⟨by simp [Command.set_reply, Command.set_done, Command.set_error_flag,
        Command.flags, Command.reply],
      by simp [Command.set_reply, Command.set_done, Command.set_error_flag, Command.flags]⟩
  · intro c h
    cases c
    exact ⟨by simpa [Command.unset_error, Command.flags, Command.reply] using h.1,
      by simp [Command.unset_error, Command.flags]⟩
  · intro c h
    cases c
    exact ⟨by simpa [Command.add_cycle, Command.flags, Command.reply] using h.1,
      by simpa [Command.add_cycle, Command.flags] using h.2⟩
  · intro f t cy r rep l
    show (Command.is_done _) = _
    rw [Command.is_done]
    rw [Bool.eq_iff_iff]
    simp [List.all_eq_true]
  · intro c r _
    cases c
    exact ⟨by simp [McCommand.set_reply, McCommand.flags, McCommand.reply],
      by simp [McCommand.set_reply, McCommand.flags]⟩
  · intro c r _
    cases c
    exact ⟨by simp [McCommand.set_error, McCommand.set_reply, McCommand.flags, McCommand.reply],
      by simp [McCommand.set_error, McCommand.set_reply, McCommand.flags]⟩

/-- C6 witness: installing a concrete integer reply on a concrete pending
command preserves the invariant. -/
theorem repust_C6_witness :
    CmdInv ((Command.mk CmdFlags.emptyFlags CmdType.Read 0 (.array []) none none).set_reply
      (.integer [53])) :=
  repust_C6.1 (Command.mk CmdFlags.emptyFlags CmdType.Read 0 (.array []) none none)
    (.integer [53])
    ⟨by simp [Command.flags, Command.reply, CmdFlags.emptyFlags],
     by simp [Command.flags, CmdFlags.emptyFlags]⟩

/-! ## C7: Back-task timeouts and the delayed counter -/

/-- C7: in any Back tick whose store holds an already-sent command,
(i) if its elapsed time exceeds `resp_timeout` the command is completed
with `CmdTimeout` (and nothing else - in particular no reply is attributed
to it or to anything else that tick), the store is cleared and `delayed`
incremented; (ii) if it has not timed out and a backend reply arrives,
then with `delayed > 0` the reply is discarded, `delayed` decremented and
the stored command kept untouched (no reply set), while with `delayed = 0`
the reply is set on the stored command and the store cleared - so a late
reply to a timed-out command is consumed by the delayed counter and never
attributed to a subsequent command. -/
theorem repust_C7 (s : BackState) (entry : StoreEntry) (inp : BackInput)
    (hstore : s.store = some entry) (hsent : entry.sent = true) :
    (inp.elapsedExceeded = true →
      backTick s inp = some (true,
        { s with store := none, delayed := s.delayed + 1 },
        [BackEffect.setError entry.id AsError.CmdTimeout])) ∧
    (inp.elapsedExceeded = false → ∀ r, inp.upstream = UpPoll.item (.ok r) →
      (0 < s.delayed →
        backTick s inp = some (true, { s with delayed := s.delayed - 1 }, [])) ∧
      (s.delayed = 0 →
        backTick s inp = some (true, { s with store := none },
          [BackEffect.setReply entry.id r]))) := by
  obtain ⟨st, subsStack, d, errN⟩ := s
  simp only at hstore
  subst hstore
  constructor
  · intro hexc
    simp [backTick, hexc, hsent]
  · intro hexc r hup
    constructor
    · intro hd
      have hd1 : 0 < d := hd
      have hd0 : ¬ d = 0 := by omega
      simp [backTick, hexc, hsent, hup, hd1, hd0]
    · intro hd
      have hd1 : d = 0 := hd
      subst hd1
      simp [backTick, hexc, hsent, hup]

/-- C7 witness: a concrete tick - stored command 3 already sent, one
pending late reply to discard (`delayed = 1`) - discards the arriving
reply, decrements `delayed` and keeps command 3 stored. -/
theorem repust_C7_witness :
    backTick ⟨some ⟨3, 0, true⟩, [], 1, 0⟩
        ⟨.timeout, false, .pending, true, .item (.ok (.integer [49]))⟩
      = some (true, ⟨some ⟨3, 0, true⟩, [], 0, 0⟩, []) :=
  ((repust_C7 ⟨some ⟨3, 0, true⟩, [], 1, 0⟩ ⟨3, 0, true⟩
      ⟨.timeout, false, .pending, true, .item (.ok (.integer [49]))⟩
      rfl rfl).2 rfl (.integer [49]) rfl).1 (by decide)

/-! ## C8: DEL/EXISTS fan-out and integer aggregation -/

/-- Installing a reply makes it the command's reply. -/
theorem Command.reply_set_reply (c : Command) (r : RespElem) :
    (c.set_reply r).reply = some r := by
  cases c; rfl

/-- The DEL/EXISTS summing fold over subs carrying integer replies adds up
the parsed values, with no `usize` wrap-around while the running total
stays below `2 ^ 64`. -/
theorem del_sum_fold (dis : List (List Nat)) (vs : List Nat)
    (h : List.Forall₂ (fun d v => btoi_usize d = some v) dis vs) :
    ∀ (subs0 : List Command) (acc : Nat), subs0.length = dis.length →
      acc + vs.sum < U64 →
      (List.zipWith (fun sub d => Command.set_reply sub (.integer d)) subs0 dis).foldl
          del_sum_step acc
        = acc + vs.sum := by
  induction h with
  | nil =>
    intro subs0 acc hlen _
    simp
  | @cons d v dtl vtl hdv htl ih =>
    intro subs0 acc hlen hsum
    cases subs0 with
    | nil => simp at hlen
    | cons s0 srest =>
      have hsc : (v :: vtl).sum = v + vtl.sum := by simp
      have hlt : acc + v < U64 := by rw [hsc] at hsum; omega
      have hstep : del_sum_step acc (s0.set_reply (.integer d)) = acc + v := by
        unfold del_sum_step
        rw [Command.reply_set_reply]
        simp [RespElem.nth, RespElem.content, hdv, Nat.mod_eq_of_lt hlt]
      rw [List.zipWith_cons_cons, List.foldl_cons, hstep,
        ih srest (acc + v) (by simpa using hlen) (by rw [hsc] at hsum; omega), hsc]
      omega

/-- C8: an array-framed DEL or EXISTS request `[verb, k1, ..., kn]` with
`n ≥ 1` keys fans out into exactly `n` sub-commands, the i-th carrying the
verb and the single key `ki` (and an empty reply slot); and once every sub
holds an integer reply whose digits parse to `vi`, the aggregated reply
encoded for the client is the RESP integer `:` followed by the decimal of
`v1 + ... + vn` and CRLF (exact as long as the total fits a `usize`). -/
theorem repust_C8 (flags : CmdFlags) (t : CmdType) (verb : RespElem)
    (keys : List RespElem) (dis : List (List Nat)) (vs : List Nat) (buf : List Nat)
    (_hk : keys ≠ [])
    (hparse : List.Forall₂ (fun d v => btoi_usize d = some v) dis vs)
    (hlen : dis.length = keys.length)
    (hsum : vs.sum < U64) :
    mk_subs flags t (.array (verb :: keys))
        = some ((Command.mk flags t 0 (.array (verb :: keys)) none
            (some (keys.map (fun k => Command.mk flags t 0 (.array [verb, k]) none none)))).into_cmd)
    ∧ (keys.map (fun k => Command.mk flags t 0 (.array [verb, k]) none none)).length
        = keys.length
    ∧ (∀ (i : Nat) (k : RespElem), keys[i]? = some k →
        (keys.map (fun k => Command.mk flags t 0 (.array [verb, k]) none none))[i]?
          = some (Command.mk flags t 0 (.array [verb, k]) none none))
    ∧ reply_cmd_sum
        (Command.mk flags t 0 (.array (verb :: keys)) none
          (some (List.zipWith (fun sub d => Command.set_reply sub (.integer d))
            (keys.map (fun k => Command.mk flags t 0 (.array [verb, k]) none none)) dis)))
        buf
      = buf ++ [58] ++ itoa vs.sum ++ [13, 10] := by
  refine ⟨rfl, by simp, ?_, ?_⟩
  · intro i k hik
    simp [List.getElem?_map, hik]
  · unfold reply_cmd_sum
    show buf ++ [58] ++ itoa (List.foldl del_sum_step 0 _) ++ [13, 10] = _
    rw [del_sum_fold dis vs hparse _ 0 (by simpa using hlen.symm) (by simpa using hsum)]
    simp

/-- C8 witness: `DEL a b` fans out into two sub-commands, and with sub
replies `:1` and `:0` the aggregated reply is `:1` followed by CRLF. -/
theorem repust_C8_witness :
    reply_cmd_sum
        (Command.mk CmdFlags.emptyFlags CmdType.Del 0
          (.array [.bulk (some [68, 69, 76]), .bulk (some [97]), .bulk (some [98])]) none
          (some (List.zipWith (fun sub d => Command.set_reply sub (.integer d))
            ([.bulk (some [97]), .bulk (some [98])].map
              (fun k => Command.mk CmdFlags.emptyFlags CmdType.Del 0
                (.array [.bulk (some [68, 69, 76]), k]) none none)) [[49], [48]])))
        []
      = [] ++ [58] ++ itoa ([1, 0] : List Nat).sum ++ [13, 10] :=
  (repust_C8 CmdFlags.emptyFlags CmdType.Del (.bulk (some [68, 69, 76]))
    [.bulk (some [97]), .bulk (some [98])] [[49], [48]] [1, 0] []
    (by simp)
    (List.Forall₂.cons (by decide) (List.Forall₂.cons (by decide) List.Forall₂.nil))
    rfl (by decide)).2.2.2

/-! ## C10: MSET decoding is not total -/

/-- C10: two well-formed RESP MSET arrays on which decoding panics instead
of producing a command or an error (`none` marks the source panics):
`MSET k v k2` - four elements, an unpaired trailing key - makes the chunk
loop index `chunk[1]` out of bounds, and an MSET array of 10001 elements
exceeds `MAX_KEY_COUNT` and hits `unimplemented!()`. -/
theorem repust_C10 :
    mk_mset CmdFlags.emptyFlags CmdType.MSet
        (.array [.bulk (some [77, 83, 69, 84]), .bulk (some [107]),
          .bulk (some [118]), .bulk (some [108])])
      = none
    ∧ mk_mset CmdFlags.emptyFlags CmdType.MSet
        (.array (.bulk (some [77, 83, 69, 84])
          :: List.replicate 10000 (.bulk (some [107]))))
      = none := by
  constructor
  · rfl
  · have h : MAX_KEY_COUNT
        < (RespElem.bulk (some [77, 83, 69, 84])
            :: List.replicate 10000 (RespElem.bulk (some [107]))).length := by
      rw [List.length_cons, List.length_replicate]
      norm_num [MAX_KEY_COUNT]
    simp only [mk_mset, h, if_true]

end Repust
